import Mathlib

/-!
Verification of the SEP-10 web-authentication utilities of the
js-aiblocks-sdk repository (the `Utils` namespace: `buildChallengeTx`,
`readChallengeTx`, `verifyChallengeTxSigners`, `verifyChallengeTxThreshold`,
`gatherTxSigners`, `verifyTxSignedBy` and the private `validateTimebounds`).

The embedding is shallow.  Account identifiers, home domains and network
passphrases are Lean `String`s.  The external collaborator `aiblocks-base-sdk`
(transaction parsing, strkey validity, ed25519 signing) is idealised per the
spec, section 6: a wire envelope is carried as already-parsed structured data
(`Envelope`), a decorated signature records the key that produced it and the
content it signed, signature verification is equality of those records, the
signature hint of a key is its last four characters, and strkey validity of a
public address is the G-character check the source itself performs on the
first character (JS `charAt(0)` / single-character `startsWith`).  Wall-clock
time (`Date.now() / 1000`) and the random nonce are explicit parameters.
JS falsiness of an optional string (`undefined` or `""`) is modelled by
`truthy`.  The sentinel `TimeoutInfinite` of the base SDK is the number 0.
-/

namespace AiBlocks

/-- JS single-character test: `s.charAt(0) === c`, also `s.startsWith(c)`
for a one-character needle. -/
def headIs (s : String) (c : Char) : Bool :=
  match s.data with
  | [] => false
  | a :: _ => a == c

/-- Strkey validity of a public address, the check performed by
`Keypair.fromPublicKey` of the external base SDK (spec section 6,
`address.isValidPublicAddress`), idealised to the G-character check. -/
def isValidPublicKey (s : String) : Bool := headIs s 'G'

/-- Signature hint of a public key (the base SDK uses the last 4 bytes of
the raw key; idealised to the last 4 characters). -/
def sigHint (s : String) : String := ⟨s.data.drop (s.data.length - 4)⟩

/-- JS truthiness of an optional string field: `undefined` and `""` are falsy. -/
def truthy : Option String → Bool
  | none => false
  | some s => !(s == "")

/-- Operation type tag; only manage-data is relevant to the SEP-10 core. -/
inductive OpType
  | manageData
  | other
deriving DecidableEq, Repr

/-- A transaction operation: type tag, optional source account, and (for
manage-data) the string key name and value. -/
structure Operation where
  type : OpType
  source : Option String
  name : String
  value : String
deriving DecidableEq, Repr

/-- Time bounds of a transaction: min and max Unix timestamps. -/
structure TimeBounds where
  minTime : Nat
  maxTime : Nat
deriving DecidableEq, Repr

/-- The signable content of a transaction: source account, sequence number,
optional time bounds, ordered operations. -/
structure TxBody where
  source : String
  sequence : Int
  timeBounds : Option TimeBounds
  operations : List Operation
deriving DecidableEq, Repr

/-- A decorated signature as carried on the wire: a hint plus the raw
signature, the latter idealised as a record of the signing key and of the
signed content (body and network passphrase), so that verification is
equality of those records. -/
structure DecoratedSignature where
  hint : String
  signerKey : String
  signedBody : TxBody
  signedNetwork : String
deriving DecidableEq, Repr

/-- A parsed transaction: body, the network passphrase it was parsed under
(used by `transaction.hash()`), and its signatures. -/
structure Transaction where
  body : TxBody
  networkPassphrase : String
  signatures : List DecoratedSignature
deriving DecidableEq, Repr

/-- A wire envelope handed to `TransactionBuilder.fromXDR`: either an
ordinary transaction envelope or a fee-bump envelope. -/
inductive Envelope
  | txEnv (body : TxBody) (signatures : List DecoratedSignature)
  | feeBumpEnv
deriving DecidableEq, Repr

/-- Signing a body under a network passphrase with a key (idealised
`transaction.sign(keypair)`). -/
def signBody (key : String) (body : TxBody) (np : String) : DecoratedSignature :=
  ⟨sigHint key, key, body, np⟩

/-- The inner-loop test of `gatherTxSigners`: the hint of the decorated
signature equals the hint of the candidate key, and the signature verifies
against the transaction hash under that key. -/
def sigMatches (key : String) (body : TxBody) (np : String)
    (sig : DecoratedSignature) : Bool :=
  sig.hint == sigHint key && sig.signerKey == key &&
    sig.signedBody == body && sig.signedNetwork == np

/-- Errors raised by the SEP-10 utilities.  The source distinguishes plain
`Error` (the two multiplexed-account rejections and the server-keypair
inference failure) from `InvalidSep10ChallengeError`; both are modelled by
the one inductive, and `renderChallengeError` recovers the exact message. -/
inductive ChallengeError
  | multiplexedClientAccount
  | multiplexedServerAccount
  | feeBumpReceived
  | nonZeroSequence
  | sourceMismatch
  | noOperations
  | noOperationSource
  | firstOpNotManageData
  | infiniteTimebounds
  | expired
  | missingHomeDomains
  | homeDomainMismatch
  | laterOpNotManageData
  | laterOpUnrecognized
  | serverKeypairInferError
  | noClientSigners
  | serverNotSigned (serverPub : String)
  | noSignersMatch
  | unrecognizedSignatures
  | signerNotValidAddress
  | thresholdNotMet (weight threshold : Nat)
deriving DecidableEq, Repr

/-- The exact message string each error is thrown with in the source
(apostrophes and the stray double-quote of the threshold message escaped). -/
def renderChallengeError : ChallengeError → String
  | .multiplexedClientAccount =>
      "Invalid clientAccountID: multiplexed accounts are not supported."
  | .multiplexedServerAccount =>
      "Invalid serverAccountID: multiplexed accounts are not supported."
  | .feeBumpReceived =>
      "Invalid challenge: expected a Transaction but received a FeeBumpTransaction"
  | .nonZeroSequence => "The transaction sequence number should be zero"
  | .sourceMismatch =>
      "The transaction source account is not equal to the server\x27s account"
  | .noOperations => "The transaction should contain at least one operation"
  | .noOperationSource =>
      "The transaction\x27s operation should contain a source account"
  | .firstOpNotManageData =>
      "The transaction\x27s operation type should be \x27manageData\x27"
  | .infiniteTimebounds => "The transaction requires non-infinite timebounds"
  | .expired => "The transaction has expired"
  | .missingHomeDomains =>
      "Invalid homeDomains: a home domain must be provided for verification"
  | .homeDomainMismatch =>
      "Invalid homeDomains: the transaction\x27s operation key name does not match the expected home domain"
  | .laterOpNotManageData =>
      "The transaction has operations that are not of type \x27manageData\x27"
  | .laterOpUnrecognized =>
      "The transaction has operations that are unrecognized"
  | .serverKeypairInferError =>
      "Couldn\x27t infer keypair from the provided \x27serverAccountID\x27"
  | .noClientSigners =>
      "No verifiable client signers provided, at least one G... address must be provided"
  | .serverNotSigned k =>
      "Transaction not signed by server: \x27" ++ k ++ "\x27"
  | .noSignersMatch => "None of the given signers match the transaction signatures"
  | .unrecognizedSignatures => "Transaction has unrecognized signatures"
  | .signerNotValidAddress => "Signer is not a valid address"
  | .thresholdNotMet w t =>
      "signers with weight " ++ toString w ++ " do not meet threshold " ++
        toString t ++ "\x22"

/-- The `homeDomains` parameter of `readChallengeTx`: a single domain string
or an array of domain strings (the two run-time shapes the source accepts). -/
inductive HomeDomains
  | str (s : String)
  | arr (domains : List String)
deriving DecidableEq, Repr

/-- JS falsiness of the `homeDomains` argument (`if (!homeDomains)`): an
empty string is falsy; an array, even empty, is truthy. -/
def homeDomainsFalsy : HomeDomains → Bool
  | .str s => s == ""
  | .arr _ => false

/-- The home-domain match of `readChallengeTx`: for a string, exact equality
of `homeDomains ++ " auth"` with the operation key name; for an array, the
first element whose `domain ++ " auth"` equals the key name. -/
def findHomeDomain (homeDomains : HomeDomains) (opName : String) : Option String :=
  match homeDomains with
  | .str s => if (s ++ " auth") == opName then some s else none
  | .arr domains => domains.find? (fun domain => (domain ++ " auth") == opName)

/-- The loop of `readChallengeTx` over the operations after the first: each
must be manage-data (else the not-manage-data error) and have the server as
source (else the unrecognized-operations error); the first offender wins. -/
def checkSubsequentOps (serverAccountID : String) :
    List Operation → Option ChallengeError
  | [] => none
  | op :: rest =>
    if op.type ≠ OpType.manageData then some .laterOpNotManageData
    else if op.source ≠ some serverAccountID then some .laterOpUnrecognized
    else checkSubsequentOps serverAccountID rest

/-- Private helper `validateTimebounds`: false when the time-bounds object is
missing, otherwise whether `now` lies within `[minTime, maxTime]`. -/
def validateTimebounds (transaction : Transaction) (now : Nat) : Bool :=
  match transaction.body.timeBounds with
  | none => false
  | some tb => decide (tb.minTime ≤ now) && decide (now ≤ tb.maxTime)

/-- The transaction body assembled by `Utils.buildChallengeTx`: source is the
server account, on-wire sequence number 0 (the builder starts from "-1" and
increments), time bounds `[now, now + timeout]`, and a single manage-data
operation with source `clientAccountID`, key `homeDomain ++ " auth"` and the
random nonce as value. -/
def challengeBody (serverKey clientAccountID homeDomain : String)
    (timeout : Nat) (nonce : String) (now : Nat) : TxBody :=
  { source := serverKey
    sequence := 0
    timeBounds := some ⟨now, now + timeout⟩
    operations := [⟨OpType.manageData, some clientAccountID,
                    homeDomain ++ " auth", nonce⟩] }

/-- `Utils.buildChallengeTx`: rejects a multiplexed (M-prefixed)
`clientAccountID` before any other work, then builds and server-signs the
challenge transaction and returns its envelope.  `now` is the wall clock at
build time and `nonce` the 64-character base64 random value. -/
def buildChallengeTx (serverKey clientAccountID homeDomain : String)
    (timeout : Nat) (networkPassphrase : String) (nonce : String) (now : Nat) :
    Except ChallengeError Envelope :=
  if headIs clientAccountID 'M' then
    .error .multiplexedClientAccount
  else
    let body := challengeBody serverKey clientAccountID homeDomain timeout nonce now
    .ok (.txEnv body [signBody serverKey body networkPassphrase])

/-- The result of `Utils.readChallengeTx`. -/
structure ChallengeContents where
  tx : Transaction
  clientAccountID : String
  matchedHomeDomain : String
deriving DecidableEq, Repr

/-- `Utils.readChallengeTx`: the fail-fast validation sequence of the source,
in source order.  `now` is the wall clock at verification time. -/
def readChallengeTx (challengeTx : Envelope) (serverAccountID networkPassphrase : String)
    (homeDomains : HomeDomains) (now : Nat) :
    Except ChallengeError ChallengeContents :=
  if headIs serverAccountID 'M' then .error .multiplexedServerAccount
  else
    match challengeTx with
    | .feeBumpEnv => .error .feeBumpReceived
    | .txEnv body sigs =>
      let transaction : Transaction := ⟨body, networkPassphrase, sigs⟩
      if body.sequence ≠ 0 then .error .nonZeroSequence
      else if body.source ≠ serverAccountID then .error .sourceMismatch
      else
        match body.operations with
        | [] => .error .noOperations
        | operation :: subsequentOperations =>
          if !(truthy operation.source) then .error .noOperationSource
          else
            let clientAccountID := operation.source.getD ""
            if operation.type ≠ OpType.manageData then .error .firstOpNotManageData
            else if (match body.timeBounds with
                     | some tb => tb.maxTime == 0
                     | none => false) then .error .infiniteTimebounds
            else if !(validateTimebounds transaction now) then .error .expired
            else if homeDomainsFalsy homeDomains then .error .missingHomeDomains
            else
              match findHomeDomain homeDomains operation.name with
              | none => .error .homeDomainMismatch
              | some matchedHomeDomain =>
                if matchedHomeDomain == "" then .error .homeDomainMismatch
                else
                  match checkSubsequentOps serverAccountID subsequentOperations with
                  | some e => .error e
                  | none => .ok ⟨transaction, clientAccountID, matchedHomeDomain⟩

/-- The first signature of the remaining pool that matches the candidate key
(hint equality plus cryptographic verification) is consumed; `none` when no
signature matches. -/
def consumeMatch (key : String) (body : TxBody) (np : String) :
    List DecoratedSignature → Option (List DecoratedSignature)
  | [] => none
  | sig :: rest =>
    if sigMatches key body np sig then some rest
    else
      match consumeMatch key body np rest with
      | some rest₂ => some (sig :: rest₂)
      | none => none

/-- Insertion into the `signersFound` set: JS `Set.add`, keeping first
insertion order and ignoring duplicates. -/
def addSigner (found : List String) (s : String) : List String :=
  if s ∈ found then found else found ++ [s]

/-- The candidate loop of `gatherTxSigners`, threading the remaining
signature pool: the loop breaks (returning the found set) as soon as the
pool is empty, raises the invalid-address error when the candidate is not a
well-formed public address, and otherwise consumes at most one matching
signature per candidate. -/
def gatherGo (body : TxBody) (np : String) :
    List String → List DecoratedSignature → List String →
    Except ChallengeError (List String × List DecoratedSignature)
  | [], pool, found => .ok (found, pool)
  | signer :: rest, pool, found =>
    if pool = [] then .ok (found, pool)
    else if !(isValidPublicKey signer) then .error .signerNotValidAddress
    else
      match consumeMatch signer body np pool with
      | some pool₂ => gatherGo body np rest pool₂ (addSigner found signer)
      | none => gatherGo body np rest pool found

/-- `Utils.gatherTxSigners`: the list of non-repeated candidates matched to a
signature of the transaction (one signature consumed per match). -/
def gatherTxSigners (transaction : Transaction) (signers : List String) :
    Except ChallengeError (List String) :=
  (gatherGo transaction.body transaction.networkPassphrase signers
    transaction.signatures []).map Prod.fst

/-- `Utils.verifyTxSignedBy`: whether `gatherTxSigners` with the single
candidate finds a non-empty signer list. -/
def verifyTxSignedBy (transaction : Transaction) (accountID : String) :
    Except ChallengeError Bool :=
  (gatherTxSigners transaction [accountID]).map (fun l => decide (l.length ≠ 0))

/-- The client-signer filter of `verifyChallengeTxSigners`: drops the server
account, drops any candidate whose first character is not G, and
deduplicates keeping first-insertion order (JS `Set`). -/
def clientSignersOf (serverPub : String) (signers : List String) : List String :=
  signers.foldl
    (fun acc signer =>
      if signer == serverPub then acc
      else if !(headIs signer 'G') then acc
      else addSigner acc signer)
    []

/-- `Utils.verifyChallengeTxSigners`: reads the challenge, checks the server
account is a well-formed public address, filters and deduplicates the client
candidates, gathers the signers of the transaction for the server plus the
filtered candidates, and performs the three signature-accounting checks of
the source before returning the found signers without the server. -/
def verifyChallengeTxSigners (challengeTx : Envelope)
    (serverAccountID networkPassphrase : String) (signers : List String)
    (homeDomains : HomeDomains) (now : Nat) :
    Except ChallengeError (List String) :=
  match readChallengeTx challengeTx serverAccountID networkPassphrase homeDomains now with
  | .error e => .error e
  | .ok contents =>
    if !(isValidPublicKey serverAccountID) then .error .serverKeypairInferError
    else
      let clientSigners := clientSignersOf serverAccountID signers
      if clientSigners = [] then .error .noClientSigners
      else
        let allSigners := serverAccountID :: clientSigners
        match gatherTxSigners contents.tx allSigners with
        | .error e => .error e
        | .ok signersFound =>
          if !(signersFound.contains serverAccountID) then
            .error (.serverNotSigned serverAccountID)
          else if signersFound.length == 1 then .error .noSignersMatch
          else if !(signersFound.length == contents.tx.signatures.length) then
            .error .unrecognizedSignatures
          else .ok (signersFound.erase serverAccountID)

/-- One entry of the `signerSummary` argument (`ServerApi.AccountRecordSigners`):
a signer key and its declared weight. -/
structure AccountRecordSigner where
  key : String
  weight : Nat
deriving DecidableEq, Repr

/-- The per-signer weight lookup of `verifyChallengeTxThreshold`:
`signerSummary.find((s) => s.key === signer)?.weight || 0` — the first entry
with the key wins, and a missing key contributes weight 0. -/
def signerWeight (signerSummary : List AccountRecordSigner) (signer : String) : Nat :=
  match signerSummary.find? (fun s => s.key == signer) with
  | some s => s.weight
  | none => 0

/-- `Utils.verifyChallengeTxThreshold`: delegates to
`verifyChallengeTxSigners` on the summary keys, sums the weights of the
returned signers, and compares the sum against the threshold. -/
def verifyChallengeTxThreshold (challengeTx : Envelope)
    (serverAccountID networkPassphrase : String) (threshold : Nat)
    (signerSummary : List AccountRecordSigner) (homeDomains : HomeDomains)
    (now : Nat) : Except ChallengeError (List String) :=
  match verifyChallengeTxSigners challengeTx serverAccountID networkPassphrase
      (signerSummary.map AccountRecordSigner.key) homeDomains now with
  | .error e => .error e
  | .ok signersFound =>
    let weight := signersFound.foldl (fun acc s => acc + signerWeight signerSummary s) 0
    if weight < threshold then .error (.thresholdNotMet weight threshold)
    else .ok signersFound

/-! ### Derived notions used to state the claims -/

/-- The signatures carried by an envelope. -/
def envSignatures : Envelope → List DecoratedSignature
  | .txEnv _ sigs => sigs
  | .feeBumpEnv => []

/-- The body carried by an envelope (a dummy body for a fee-bump envelope). -/
def envBodyD : Envelope → TxBody
  | .txEnv body _ => body
  | .feeBumpEnv => ⟨"", 0, none, []⟩

/-- The validation steps of `readChallengeTx` that precede the expiry check,
in source order: non-multiplexed server account, an ordinary (non-fee-bump)
envelope, sequence number 0, transaction source equal to the server account,
at least one operation, a truthy first-operation source, first operation of
type manage-data, and no infinite (`maxTime = 0`) time bounds. -/
def preTimeChecksPass (challengeTx : Envelope) (serverAccountID : String) : Bool :=
  match challengeTx with
  | .feeBumpEnv => false
  | .txEnv body _ =>
    !(headIs serverAccountID 'M') &&
    body.sequence == 0 &&
    body.source == serverAccountID &&
    (match body.operations with
     | [] => false
     | op :: _ => truthy op.source && op.type == OpType.manageData) &&
    (match body.timeBounds with
     | some tb => !(tb.maxTime == 0)
     | none => true)

/-- The spec-side expiry condition: the time-bounds object is missing, or
the verification instant lies outside `[minTime, maxTime]`. -/
def outsideTimeBounds (body : TxBody) (now : Nat) : Bool :=
  match body.timeBounds with
  | none => true
  | some tb => decide (now < tb.minTime) || decide (tb.maxTime < now)

/-! ### Helper lemmas -/

theorem mem_addSigner {acc : List String} {x s : String} :
    s ∈ addSigner acc x ↔ s ∈ acc ∨ s = x := by
  unfold addSigner
  split
  · rename_i hx
    constructor
    · exact Or.inl
    · rintro (h | rfl)
      · exact h
      · exact hx
  · simp [List.mem_append]

theorem length_addSigner (acc : List String) (x : String) :
    (addSigner acc x).length ≤ acc.length + 1 := by
  unfold addSigner
  split <;> simp

theorem foldl_clientStep_mem (serverPub : String) (l : List String)
    (acc : List String) (s : String) :
    (s ∈ l.foldl
        (fun acc signer =>
          if signer == serverPub then acc
          else if !(headIs signer 'G') then acc
          else addSigner acc signer)
        acc) ↔
      s ∈ acc ∨ (s ∈ l ∧ s ≠ serverPub ∧ headIs s 'G' = true) := by
  induction l generalizing acc with
  | nil => simp
  | cons x xs ih =>
    simp only [List.foldl_cons]
    rw [ih]
    by_cases hx : (x == serverPub) = true
    · have hx' : x = serverPub := by simpa using hx
      subst hx'
      simp only [hx, if_true]
      constructor
      · rintro (h | h)
        · exact Or.inl h
        · exact Or.inr ⟨List.mem_cons_of_mem _ h.1, h.2⟩
      · rintro (h | ⟨hmem, hne, hG⟩)
        · exact Or.inl h
        · rcases List.mem_cons.mp hmem with rfl | hmem
          · exact absurd rfl hne
          · exact Or.inr ⟨hmem, hne, hG⟩
    · simp only [hx, if_false]
      by_cases hG : headIs x 'G' = true
      · simp only [hG, Bool.not_true, if_false]
        constructor
        · rintro (h | h)
          · rcases mem_addSigner.mp h with h | rfl
            · exact Or.inl h
            · exact Or.inr ⟨List.mem_cons_self _ _, beq_eq_false_iff_ne.mp (by simpa using hx), hG⟩
          · exact Or.inr ⟨List.mem_cons_of_mem _ h.1, h.2⟩
        · rintro (h | ⟨hmem, hne, hsG⟩)
          · exact Or.inl (mem_addSigner.mpr (Or.inl h))
          · rcases List.mem_cons.mp hmem with rfl | hmem
            · exact Or.inl (mem_addSigner.mpr (Or.inr rfl))
            · exact Or.inr ⟨hmem, hne, hsG⟩
      · have hG' : headIs x 'G' = false := by simpa using hG
        simp only [hG', Bool.not_false, if_true]
        constructor
        · rintro (h | h)
          · exact Or.inl h
          · exact Or.inr ⟨List.mem_cons_of_mem _ h.1, h.2⟩
        · rintro (h | ⟨hmem, hne, hsG⟩)
          · exact Or.inl h
          · rcases List.mem_cons.mp hmem with rfl | hmem
            · exact absurd hsG (by simp [hG'])
            · exact Or.inr ⟨hmem, hne, hsG⟩

theorem mem_clientSignersOf {serverPub : String} {signers : List String} {s : String} :
    s ∈ clientSignersOf serverPub signers ↔
      s ∈ signers ∧ s ≠ serverPub ∧ headIs s 'G' = true := by
  unfold clientSignersOf
  rw [foldl_clientStep_mem]
  simp

theorem consumeMatch_length {key : String} {body : TxBody} {np : String} :
    ∀ {pool pool₂ : List DecoratedSignature},
      consumeMatch key body np pool = some pool₂ → pool₂.length + 1 = pool.length := by
  intro pool
  induction pool with
  | nil => intro pool₂ h; simp [consumeMatch] at h
  | cons sig rest ih =>
    intro pool₂ h
    unfold consumeMatch at h
    split at h
    · cases h
      simp
    · cases hc : consumeMatch key body np rest with
      | none => rw [hc] at h; cases h
      | some r₂ =>
        rw [hc] at h
        cases h
        simp [← ih hc]

theorem consumeMatch_mem {key : String} {body : TxBody} {np : String}
    {sig : DecoratedSignature} (hsig : sigMatches key body np sig = false) :
    ∀ {pool pool₂ : List DecoratedSignature},
      consumeMatch key body np pool = some pool₂ → sig ∈ pool → sig ∈ pool₂ := by
  intro pool
  induction pool with
  | nil => intro pool₂ h; simp [consumeMatch] at h
  | cons s rest ih =>
    intro pool₂ h hmem
    unfold consumeMatch at h
    split at h
    · rename_i hs
      cases h
      rcases List.mem_cons.mp hmem with rfl | hmem
      · rw [hsig] at hs; cases hs
      · exact hmem
    · cases hc : consumeMatch key body np rest with
      | none => rw [hc] at h; cases h
      | some r₂ =>
        rw [hc] at h
        cases h
        rcases List.mem_cons.mp hmem with rfl | hmem
        · exact List.mem_cons_self _ _
        · exact List.mem_cons_of_mem _ (ih hc hmem)

theorem gatherGo_length {body : TxBody} {np : String} :
    ∀ (cands : List String) (pool : List DecoratedSignature) (found : List String)
      {r : List String} {rem : List DecoratedSignature},
      gatherGo body np cands pool found = .ok (r, rem) →
      r.length + rem.length ≤ found.length + pool.length := by
  intro cands
  induction cands with
  | nil =>
    intro pool found r rem h
    cases h
    omega
  | cons c cs ih =>
    intro pool found r rem h
    unfold gatherGo at h
    split at h
    · rename_i hpool
      cases h
      simp [hpool]
    · split at h
      · cases h
      · cases hc : consumeMatch c body np pool with
        | some pool₂ =>
          rw [hc] at h
          have h1 := ih pool₂ (addSigner found c) h
          have h2 := consumeMatch_length hc
          have h3 := length_addSigner found c
          omega
        | none =>
          rw [hc] at h
          exact ih pool found h

theorem gatherGo_unmatched {body : TxBody} {np : String} {sig : DecoratedSignature} :
    ∀ (cands : List String) (pool : List DecoratedSignature) (found : List String)
      {r : List String} {rem : List DecoratedSignature},
      gatherGo body np cands pool found = .ok (r, rem) →
      sig ∈ pool → (∀ c ∈ cands, sigMatches c body np sig = false) → sig ∈ rem := by
  intro cands
  induction cands with
  | nil =>
    intro pool found r rem h hmem _
    cases h
    exact hmem
  | cons c cs ih =>
    intro pool found r rem h hmem hun
    unfold gatherGo at h
    split at h
    · rename_i hpool
      rw [hpool] at hmem
      cases hmem
    · split at h
      · cases h
      · cases hc : consumeMatch c body np pool with
        | some pool₂ =>
          rw [hc] at h
          have hsig : sigMatches c body np sig = false :=
            hun c (List.mem_cons_self _ _)
          exact ih pool₂ (addSigner found c) h
            (consumeMatch_mem hsig hc hmem)
            (fun d hd => hun d (List.mem_cons_of_mem _ hd))
        | none =>
          rw [hc] at h
          exact ih pool found h hmem
            (fun d hd => hun d (List.mem_cons_of_mem _ hd))

theorem gatherGo_invalid_reached {body : TxBody} {np : String} {c : String}
    (hc : isValidPublicKey c = false) :
    ∀ (pre rest : List String) (pool : List DecoratedSignature) (found : List String)
      {r : List String} {rem : List DecoratedSignature},
      gatherGo body np (pre ++ c :: rest) pool found = .ok (r, rem) →
      ∃ f, gatherGo body np pre pool found = .ok (f, []) := by
  intro pre
  induction pre with
  | nil =>
    intro rest pool found r rem h
    rw [List.nil_append] at h
    unfold gatherGo at h
    split at h
    · rename_i hpool
      subst hpool
      exact ⟨found, rfl⟩
    · rw [hc] at h
      simp at h
  | cons p ps ih =>
    intro rest pool found r rem h
    rw [List.cons_append] at h
    unfold gatherGo at h
    split at h
    · rename_i hpool
      subst hpool
      exact ⟨found, by unfold gatherGo; simp⟩
    · rename_i hpool
      split at h
      · cases h
      · rename_i hvalid
        cases hcm : consumeMatch p body np pool with
        | some pool₂ =>
          rw [hcm] at h
          obtain ⟨f, hf⟩ := ih rest pool₂ (addSigner found p) h
          refine ⟨f, ?_⟩
          unfold gatherGo
          rw [if_neg hpool, if_neg (by simp_all), hcm]
          exact hf
        | none =>
          rw [hcm] at h
          obtain ⟨f, hf⟩ := ih rest pool found h
          refine ⟨f, ?_⟩
          unfold gatherGo
          rw [if_neg hpool, if_neg (by simp_all), hcm]
          exact hf

theorem beq_append_right (a b t : String) : ((a ++ t) == (b ++ t)) = (a == b) := by
  by_cases h : a = b
  · subst h
    simp
  · have hne : a ++ t ≠ b ++ t := by
      intro hc
      apply h
      apply String.ext
      have := congrArg String.data hc
      rw [String.data_append, String.data_append] at this
      exact List.append_cancel_right this
    rw [beq_eq_false_iff_ne.mpr h, beq_eq_false_iff_ne.mpr hne]

theorem find?_beq_mem {hd : String} :
    ∀ {l : List String}, hd ∈ l → l.find? (fun d => d == hd) = some hd := by
  intro l
  induction l with
  | nil => intro h; cases h
  | cons x xs ih =>
    intro h
    by_cases hx : (x == hd) = true
    · have : x = hd := by simpa using hx
      subst this
      simp [List.find?]
    · rcases List.mem_cons.mp h with rfl | hmem
      · simp at hx
      · simp only [List.find?, hx]
        exact ih hmem

theorem findHomeDomain_arr_mem {homeDomain : String} {domains : List String}
    (h : homeDomain ∈ domains) :
    findHomeDomain (.arr domains) (homeDomain ++ " auth") = some homeDomain := by
  unfold findHomeDomain
  have hp : (fun domain => (domain ++ " auth") == (homeDomain ++ " auth")) =
      (fun domain => domain == homeDomain) := by
    funext d
    exact beq_append_right d homeDomain " auth"
  rw [hp]
  exact find?_beq_mem h

theorem findHomeDomain_arr_not_mem {homeDomain : String} {domains : List String}
    (h : homeDomain ∉ domains) :
    findHomeDomain (.arr domains) (homeDomain ++ " auth") = none := by
  unfold findHomeDomain
  apply List.find?_eq_none.mpr
  intro d hd hc
  apply h
  have : d = homeDomain := by
    have := (beq_append_right d homeDomain " auth") ▸ hc
    simpa using this
  exact this ▸ hd

theorem findHomeDomain_str_ne {homeDomain d : String} (h : d ≠ homeDomain) :
    findHomeDomain (.str d) (homeDomain ++ " auth") = none := by
  show (if ((d ++ " auth") == (homeDomain ++ " auth")) = true then some d else none) = none
  rw [beq_append_right d homeDomain " auth", beq_eq_false_iff_ne.mpr h]
  rfl

theorem validateTimebounds_eq_false_iff (t : Transaction) (now : Nat) :
    validateTimebounds t now = false ↔ outsideTimeBounds t.body now = true := by
  unfold validateTimebounds outsideTimeBounds
  cases t.body.timeBounds with
  | none => simp
  | some tb =>
    simp only [Bool.and_eq_false_iff, decide_eq_false_iff_not, Bool.or_eq_true,
      decide_eq_true_eq]
    omega

theorem readChallengeTx_challengeBody
    (serverKey clientAccountID homeDomain : String) (timeout : Nat)
    (nonce : String) (now : Nat) (sigs : List DecoratedSignature)
    (np : String) (homeDomains : HomeDomains) (now' : Nat)
    (hM : headIs serverKey 'M' = false)
    (hc : clientAccountID ≠ "")
    (hmax : now + timeout ≠ 0)
    (hlo : now ≤ now') (hhi : now' ≤ now + timeout)
    (hfalsy : homeDomainsFalsy homeDomains = false) :
    readChallengeTx
        (.txEnv (challengeBody serverKey clientAccountID homeDomain timeout nonce now) sigs)
        serverKey np homeDomains now' =
      match findHomeDomain homeDomains (homeDomain ++ " auth") with
      | none => .error .homeDomainMismatch
      | some d =>
        if d == "" then .error .homeDomainMismatch
        else .ok ⟨⟨challengeBody serverKey clientAccountID homeDomain timeout nonce now,
                   np, sigs⟩, clientAccountID, d⟩ := by
  have hcb : (clientAccountID == "") = false := beq_eq_false_iff_ne.mpr hc
  have hmx : ((now + timeout) == 0) = false := beq_eq_false_iff_ne.mpr hmax
  cases hfd : findHomeDomain homeDomains (homeDomain ++ " auth") with
  | none =>
    simp [readChallengeTx, challengeBody, hM, truthy, hcb, hmx,
      validateTimebounds, hfalsy, hlo, hhi, hfd]
  | some d =>
    by_cases hd0 : (d == "") = true
    · simp [readChallengeTx, challengeBody, hM, truthy, hcb, hmx,
        validateTimebounds, hfalsy, hlo, hhi, hfd, hd0]
    · have hd0' : (d == "") = false := by simpa using hd0
      simp [readChallengeTx, challengeBody, hM, truthy, hcb, hmx,
        validateTimebounds, hfalsy, hlo, hhi, hfd, hd0', checkSubsequentOps]

theorem readChallengeTx_ok_shape {e : Envelope} {s np : String} {hd : HomeDomains}
    {now : Nat} {contents : ChallengeContents}
    (h : readChallengeTx e s np hd now = .ok contents) :
    ∃ body sigs, e = .txEnv body sigs ∧ contents.tx = ⟨body, np, sigs⟩ := by
  cases e with
  | feeBumpEnv =>
    unfold readChallengeTx at h
    split at h <;> cases h
  | txEnv body sigs =>
    refine ⟨body, sigs, rfl, ?_⟩
    unfold readChallengeTx at h
    by_cases h1 : headIs s 'M' = true
    · simp [h1] at h
    rw [if_neg h1] at h
    dsimp only at h
    by_cases h2 : body.sequence ≠ 0
    · simp [h2] at h
    rw [if_neg h2] at h
    by_cases h3 : body.source ≠ s
    · simp [h3] at h
    rw [if_neg h3] at h
    cases hops : body.operations with
    | nil => rw [hops] at h; simp at h
    | cons op rest =>
      rw [hops] at h
      dsimp only at h
      by_cases h4 : (!(truthy op.source)) = true
      · simp [h4] at h
      rw [if_neg h4] at h
      by_cases h5 : op.type ≠ OpType.manageData
      · simp [h5] at h
      rw [if_neg h5] at h
      by_cases h6 : (match body.timeBounds with
          | some tb => tb.maxTime == 0
          | none => false) = true
      · simp only [h6, if_true] at h; cases h
      rw [if_neg h6] at h
      by_cases h7 : (!(validateTimebounds ⟨body, np, sigs⟩ now)) = true
      · simp only [h7, if_true] at h; cases h
      rw [if_neg h7] at h
      by_cases h8 : homeDomainsFalsy hd = true
      · simp only [h8, if_true] at h; cases h
      rw [if_neg h8] at h
      cases hfd : findHomeDomain hd op.name with
      | none => rw [hfd] at h; simp at h
      | some d =>
        rw [hfd] at h
        dsimp only at h
        by_cases h9 : (d == "") = true
        · simp only [h9, if_true] at h; cases h
        rw [if_neg h9] at h
        cases hsub : checkSubsequentOps s rest with
        | some err => rw [hsub] at h; simp at h
        | none =>
          rw [hsub] at h
          dsimp only at h
          cases h
          rfl

theorem verifySigners_ok_inv {e : Envelope} {s np : String} {signers : List String}
    {hd : HomeDomains} {now : Nat} {l : List String}
    (h : verifyChallengeTxSigners e s np signers hd now = .ok l) :
    ∃ body sigs found rem,
      e = .txEnv body sigs ∧
      gatherGo body np (s :: clientSignersOf s signers) sigs [] = .ok (found, rem) ∧
      s ∈ found ∧ found.length = sigs.length ∧ l = found.erase s := by
  unfold verifyChallengeTxSigners at h
  cases hread : readChallengeTx e s np hd now with
  | error err => rw [hread] at h; cases h
  | ok contents =>
    rw [hread] at h
    dsimp only at h
    obtain ⟨body, sigs, rfl, htx⟩ := readChallengeTx_ok_shape hread
    refine ⟨body, sigs, ?_⟩
    by_cases h1 : (!(isValidPublicKey s)) = true
    · rw [if_pos h1] at h; cases h
    rw [if_neg h1] at h
    by_cases h2 : clientSignersOf s signers = []
    · rw [if_pos h2] at h; cases h
    rw [if_neg h2] at h
    cases hg : gatherTxSigners contents.tx (s :: clientSignersOf s signers) with
    | error err => rw [hg] at h; cases h
    | ok found =>
      rw [hg] at h
      dsimp only at h
      by_cases h3 : (!(found.contains s)) = true
      · rw [if_pos h3] at h; cases h
      rw [if_neg h3] at h
      by_cases h4 : (found.length == 1) = true
      · rw [if_pos h4] at h; cases h
      rw [if_neg h4] at h
      by_cases h5 : (!(found.length == contents.tx.signatures.length)) = true
      · rw [if_pos h5] at h; cases h
      rw [if_neg h5] at h
      cases h
      have hmem : s ∈ found := List.elem_iff.mp (by simpa using h3)
      have hlen : found.length = contents.tx.signatures.length := by simpa using h5
      rw [htx] at hg hlen
      refine ⟨found, ?_⟩
      unfold gatherTxSigners at hg
      dsimp only at hg
      cases hgo : gatherGo body np (s :: clientSignersOf s signers) sigs [] with
      | error err => rw [hgo] at hg; cases hg
      | ok pair =>
        rw [hgo] at hg
        obtain ⟨f, rem⟩ := pair
        cases hg
        exact ⟨rem, rfl, rfl, hmem, hlen, rfl⟩

theorem verifySigners_unrecognized_path {e : Envelope} {s np : String}
    {signers : List String} {hd : HomeDomains} {now : Nat}
    {contents : ChallengeContents} {found : List String}
    (hread : readChallengeTx e s np hd now = .ok contents)
    (hvalid : isValidPublicKey s = true)
    (hne : clientSignersOf s signers ≠ [])
    (hg : gatherTxSigners contents.tx (s :: clientSignersOf s signers) = .ok found)
    (hcontains : found.contains s = true)
    (hlen1 : found.length ≠ 1)
    (hlen2 : found.length ≠ contents.tx.signatures.length) :
    verifyChallengeTxSigners e s np signers hd now = .error .unrecognizedSignatures := by
  unfold verifyChallengeTxSigners
  rw [hread]
  dsimp only
  rw [hvalid]
  rw [if_neg (by simp)]
  rw [if_neg hne]
  rw [hg]
  dsimp only
  rw [hcontains]
  rw [if_neg (by simp)]
  rw [if_neg (by simpa using hlen1)]
  rw [if_pos (by simpa using hlen2)]

theorem checkSubsequentOps_ne_expired (s : String) :
    ∀ ops : List Operation, checkSubsequentOps s ops ≠ some .expired := by
  intro ops
  induction ops with
  | nil => simp [checkSubsequentOps]
  | cons op rest ih =>
    unfold checkSubsequentOps
    split
    · simp
    · split
      · simp
      · exact ih

theorem readChallengeTx_expired_iff (e : Envelope) (s np : String)
    (hd : HomeDomains) (now : Nat) :
    readChallengeTx e s np hd now = .error .expired ↔
      (preTimeChecksPass e s = true ∧ outsideTimeBounds (envBodyD e) now = true) := by
  cases e with
  | feeBumpEnv =>
    constructor
    · intro h
      unfold readChallengeTx at h
      split at h <;> cases h
    · rintro ⟨h1, _⟩
      simp [preTimeChecksPass] at h1
  | txEnv body sigs =>
    unfold readChallengeTx preTimeChecksPass envBodyD
    by_cases h1 : headIs s 'M' = true
    · simp [h1]
    have h1' : headIs s 'M' = false := by simpa using h1
    rw [if_neg h1]
    try dsimp only
    by_cases h2 : body.sequence ≠ 0
    · have hb2 : (body.sequence == 0) = false := beq_eq_false_iff_ne.mpr h2
      simp [h2, hb2]
    rw [if_neg h2]
    have h2' : body.sequence = 0 := not_ne_iff.mp h2
    by_cases h3 : body.source ≠ s
    · have hb3 : (body.source == s) = false := beq_eq_false_iff_ne.mpr h3
      simp [h3, hb3]
    rw [if_neg h3]
    have h3' : body.source = s := not_ne_iff.mp h3
    cases hops : body.operations with
    | nil => simp
    | cons op rest =>
      try dsimp only
      by_cases h4 : (!(truthy op.source)) = true
      · have h4' : truthy op.source = false := by simpa using h4
        simp [h4', h4]
      rw [if_neg h4]
      have h4' : truthy op.source = true := by simpa using h4
      try dsimp only
      by_cases h5 : op.type ≠ OpType.manageData
      · have hb5 : (op.type == OpType.manageData) = false := beq_eq_false_iff_ne.mpr h5
        simp [h5, hb5]
      rw [if_neg h5]
      have h5' : op.type = OpType.manageData := not_ne_iff.mp h5
      by_cases h6 : (match body.timeBounds with
          | some tb => tb.maxTime == 0
          | none => false) = true
      · rw [if_pos h6]
        constructor
        · intro h; cases h
        · rintro ⟨hA, _⟩
          exfalso
          cases htb : body.timeBounds with
          | none => rw [htb] at h6; cases h6
          | some tb =>
            rw [htb] at h6 hA
            simp at hA h6
            exact absurd h6 hA.2
      · rw [if_neg h6]
        by_cases h7 : (!(validateTimebounds ⟨body, np, sigs⟩ now)) = true
        · rw [if_pos h7]
          have hout : outsideTimeBounds body now = true :=
            (validateTimebounds_eq_false_iff ⟨body, np, sigs⟩ now).mp (by simpa using h7)
          have h6' : (match body.timeBounds with
              | some tb => !(tb.maxTime == 0)
              | none => true) = true := by
            cases htb : body.timeBounds with
            | none => rfl
            | some tb =>
              rw [htb] at h6
              simpa using h6
          simp [h1', h2', h3', h4', h5', h6', hout]
        · rw [if_neg h7]
          have hval : validateTimebounds ⟨body, np, sigs⟩ now = true := by simpa using h7
          have hout : outsideTimeBounds body now = false := by
            cases hB : outsideTimeBounds body now with
            | false => rfl
            | true =>
              have hcontra := (validateTimebounds_eq_false_iff ⟨body, np, sigs⟩ now).mpr hB
              rw [hval] at hcontra
              exact hcontra
          rw [hout]
          constructor
          · intro h
            exfalso
            by_cases h8 : homeDomainsFalsy hd = true
            · rw [if_pos h8] at h; cases h
            rw [if_neg h8] at h
            cases hfd : findHomeDomain hd op.name with
            | none => rw [hfd] at h; cases h
            | some d =>
              rw [hfd] at h
              dsimp only at h
              by_cases h9 : (d == "") = true
              · rw [if_pos h9] at h; cases h
              rw [if_neg h9] at h
              cases hsub : checkSubsequentOps s rest with
              | some err =>
                rw [hsub] at h
                injection h with h'
                rw [h'] at hsub
                exact checkSubsequentOps_ne_expired s rest hsub
              | none => rw [hsub] at h; cases h
          · rintro ⟨_, hfalse⟩
            simp at hfalse

/-! ### Concrete fixtures used by witnesses and counterexamples -/

/-- A sample server public key. -/
def sampleServer : String := "GSERVER"

/-- A sample client public key. -/
def sampleClient : String := "GCLIENT"

/-- The body of a sample challenge: built at time 5 with a 10-second timeout. -/
def sampleBody : TxBody := challengeBody sampleServer sampleClient "SDF" 10 "nonce" 5

/-- The server signature over the sample body. -/
def sampleSigServer : DecoratedSignature := signBody sampleServer sampleBody "NP"

/-- The client signature over the sample body. -/
def sampleSigClient : DecoratedSignature := signBody sampleClient sampleBody "NP"

/-- A third-party signature over the sample body, by a key listed nowhere. -/
def sampleSigExtra : DecoratedSignature := signBody "GEXTRA" sampleBody "NP"

/-- The sample challenge signed by server and client. -/
def sampleEnv : Envelope := .txEnv sampleBody [sampleSigServer, sampleSigClient]

/-- The sample challenge carrying one extra, unlisted signature. -/
def sampleEnvExtra : Envelope :=
  .txEnv sampleBody [sampleSigServer, sampleSigClient, sampleSigExtra]

/-- A sample transaction with no signatures at all. -/
def sampleTxNoSigs : Transaction := ⟨sampleBody, "NP", []⟩

/-- A challenge body whose first-operation source is a multiplexed address. -/
def muxedBody : TxBody := challengeBody sampleServer "MCLIENT" "SDF" 10 "nonce" 5

/-! ### Claims -/

/-- C1: for every server keypair, non-multiplexed client account ID,
non-empty home domain, timeout and network passphrase, reading the challenge
produced by `buildChallengeTx` with `readChallengeTx` (same server key, same
network passphrase, same home domain, within the validity window) succeeds
and returns the `clientAccountID` unchanged and `matchedHomeDomain` equal to
the home domain used to build. -/
theorem buildChallengeTx_readChallengeTx_roundTrip
    (serverKey clientAccountID homeDomain : String) (timeout : Nat)
    (networkPassphrase nonce : String) (now : Nat)
    (hserverM : headIs serverKey 'M' = false)
    (hclientM : headIs clientAccountID 'M' = false)
    (hclient : clientAccountID ≠ "")
    (hdomain : homeDomain ≠ "")
    (hnow : 0 < now) :
    buildChallengeTx serverKey clientAccountID homeDomain timeout
        networkPassphrase nonce now =
      .ok (.txEnv (challengeBody serverKey clientAccountID homeDomain timeout nonce now)
        [signBody serverKey
          (challengeBody serverKey clientAccountID homeDomain timeout nonce now)
          networkPassphrase]) ∧
    readChallengeTx
        (.txEnv (challengeBody serverKey clientAccountID homeDomain timeout nonce now)
          [signBody serverKey
            (challengeBody serverKey clientAccountID homeDomain timeout nonce now)
            networkPassphrase])
        serverKey networkPassphrase (.str homeDomain) now =
      .ok ⟨⟨challengeBody serverKey clientAccountID homeDomain timeout nonce now,
            networkPassphrase,
            [signBody serverKey
              (challengeBody serverKey clientAccountID homeDomain timeout nonce now)
              networkPassphrase]⟩,
           clientAccountID, homeDomain⟩ := by
  constructor
  · unfold buildChallengeTx
    rw [if_neg (by simp [hclientM])]
  · have h := readChallengeTx_challengeBody serverKey clientAccountID homeDomain
      timeout nonce now
      [signBody serverKey
        (challengeBody serverKey clientAccountID homeDomain timeout nonce now)
        networkPassphrase]
      networkPassphrase (.str homeDomain) now
      hserverM hclient (by omega) (le_refl now) (by omega)
      (by simp [homeDomainsFalsy, hdomain])
    rw [h]
    simp [findHomeDomain, hdomain]

/-- Witness for C1 at concrete inputs. -/
theorem buildChallengeTx_readChallengeTx_roundTrip_witness :
    buildChallengeTx "GSERVER" "GCLIENT" "SDF" 300 "NP" "nonce" 1000 =
      .ok (.txEnv (challengeBody "GSERVER" "GCLIENT" "SDF" 300 "nonce" 1000)
        [signBody "GSERVER" (challengeBody "GSERVER" "GCLIENT" "SDF" 300 "nonce" 1000) "NP"]) ∧
    readChallengeTx
        (.txEnv (challengeBody "GSERVER" "GCLIENT" "SDF" 300 "nonce" 1000)
          [signBody "GSERVER" (challengeBody "GSERVER" "GCLIENT" "SDF" 300 "nonce" 1000) "NP"])
        "GSERVER" "NP" (.str "SDF") 1000 =
      .ok ⟨⟨challengeBody "GSERVER" "GCLIENT" "SDF" 300 "nonce" 1000, "NP",
            [signBody "GSERVER" (challengeBody "GSERVER" "GCLIENT" "SDF" 300 "nonce" 1000) "NP"]⟩,
           "GCLIENT", "SDF"⟩ :=
  buildChallengeTx_readChallengeTx_roundTrip "GSERVER" "GCLIENT" "SDF" 300 "NP"
    "nonce" 1000 (by decide) (by decide) (by decide) (by decide) (by decide)

/-- C5: for every transaction with an empty signature list and every
non-empty candidate list, `gatherTxSigners` returns the empty list and never
throws. -/
theorem gatherTxSigners_unsigned_ok (t : Transaction) (signers : List String)
    (hsig : t.signatures = []) (hne : signers ≠ []) :
    gatherTxSigners t signers = .ok [] := by
  unfold gatherTxSigners
  rw [hsig]
  cases signers with
  | nil => exact absurd rfl hne
  | cons c cs =>
    unfold gatherGo
    simp [Except.map]

/-- Witness for C5 at a concrete unsigned transaction. -/
theorem gatherTxSigners_unsigned_ok_witness :
    gatherTxSigners sampleTxNoSigs ["GCLIENT", "x"] = .ok [] :=
  gatherTxSigners_unsigned_ok sampleTxNoSigs ["GCLIENT", "x"] rfl (by decide)

/-- C4 (amended): a malformed (non-G) candidate makes `gatherTxSigners`
throw the invalid-address error whenever at least one unconsumed signature
remains when the candidate is reached — in particular always when the
transaction has a signature and the malformed candidate comes first; the
loop never skips a malformed candidate in favour of later ones, but when
every signature has already been consumed (or the transaction is unsigned)
the loop exits early and the remaining candidates are not examined. -/
theorem gatherTxSigners_invalid_candidate
    (t : Transaction) (c : String) (rest : List String)
    (hc : isValidPublicKey c = false) :
    (t.signatures ≠ [] →
      gatherTxSigners t (c :: rest) = .error .signerNotValidAddress) ∧
    (∀ pre r, gatherTxSigners t (pre ++ c :: rest) = .ok r →
      ∃ f, gatherGo t.body t.networkPassphrase pre t.signatures [] = .ok (f, [])) := by
  constructor
  · intro hne
    unfold gatherTxSigners gatherGo
    rw [if_neg hne, hc]
    simp [Except.map]
  · intro pre r h
    unfold gatherTxSigners at h
    cases hgo : gatherGo t.body t.networkPassphrase (pre ++ c :: rest) t.signatures [] with
    | error err => rw [hgo] at h; cases h
    | ok pair => exact gatherGo_invalid_reached hc pre rest t.signatures [] hgo

/-- Witness for C4 (amended) at a concrete signed transaction. -/
theorem gatherTxSigners_invalid_candidate_witness :
    gatherTxSigners ⟨sampleBody, "NP", [sampleSigServer]⟩ ["x", "GCLIENT"] =
      .error .signerNotValidAddress :=
  (gatherTxSigners_invalid_candidate ⟨sampleBody, "NP", [sampleSigServer]⟩
    "x" ["GCLIENT"] (by decide)).1 (by decide)

/-- Counterexample for C4 as stated: with an unsigned transaction the
candidate loop breaks before validating the malformed candidate, so the call
succeeds instead of failing. -/
theorem gatherTxSigners_invalid_candidate_counterexample :
    isValidPublicKey "x" = false ∧
    gatherTxSigners sampleTxNoSigs ["x"] = .ok [] :=
  ⟨rfl, rfl⟩

/-- C10: when `signerSummary` contains several entries with the same key,
the weight used by the threshold computation is that of the first entry with
the key (JS `Array.prototype.find` returns the first match). -/
theorem signerWeight_first_entry_wins
    (pre : List AccountRecordSigner) (entry : AccountRecordSigner)
    (post : List AccountRecordSigner) (k : String)
    (hpre : ∀ p ∈ pre, (p.key == k) = false)
    (hk : (entry.key == k) = true) :
    signerWeight (pre ++ entry :: post) k = entry.weight := by
  induction pre with
  | nil =>
    unfold signerWeight
    rw [List.nil_append]
    have hfind : List.find? (fun s => s.key == k) (entry :: post) = some entry :=
      List.find?_cons_of_pos _ hk
    rw [hfind]
  | cons p ps ih =>
    have hp := hpre p (List.mem_cons_self p ps)
    have ih' := ih (fun q hq => hpre q (List.mem_cons_of_mem _ hq))
    unfold signerWeight at ih' ⊢
    rw [List.cons_append]
    have hfind : List.find? (fun s => s.key == k) (p :: (ps ++ entry :: post)) =
        List.find? (fun s => s.key == k) (ps ++ entry :: post) :=
      List.find?_cons_of_neg _ (by simp [hp])
    rw [hfind]
    exact ih'

/-- Witness for C10: with duplicate entries for the same key and different
weights, the first weight wins. -/
theorem signerWeight_first_entry_wins_witness :
    signerWeight [⟨"GA", 5⟩, ⟨"GB", 1⟩, ⟨"GB", 3⟩] "GB" = 1 :=
  signerWeight_first_entry_wins [⟨"GA", 5⟩] ⟨"GB", 1⟩ [⟨"GB", 3⟩] "GB"
    (by decide) (by decide)

/-- C6 (amended): `buildChallengeTx` rejects a multiplexed `clientAccountID`
before any other work, and `readChallengeTx` rejects a multiplexed
`serverAccountID` before deserialising (for every envelope, fee-bump
included); but `readChallengeTx` does NOT reject a challenge whose first
operation carries a multiplexed source — it accepts the challenge and
returns the M-address as `clientAccountID`. -/
theorem multiplexed_account_rejection :
    (∀ (serverKey clientAccountID homeDomain : String) (timeout : Nat)
        (networkPassphrase nonce : String) (now : Nat),
        headIs clientAccountID 'M' = true →
        buildChallengeTx serverKey clientAccountID homeDomain timeout
            networkPassphrase nonce now = .error .multiplexedClientAccount) ∧
    (∀ (e : Envelope) (s np : String) (hd : HomeDomains) (now : Nat),
        headIs s 'M' = true →
        readChallengeTx e s np hd now = .error .multiplexedServerAccount) ∧
    (∀ (serverKey c homeDomain : String) (timeout : Nat) (np nonce : String)
        (now : Nat) (sigs : List DecoratedSignature),
        headIs serverKey 'M' = false → headIs c 'M' = true → c ≠ "" →
        homeDomain ≠ "" → 0 < now →
        readChallengeTx
            (.txEnv (challengeBody serverKey c homeDomain timeout nonce now) sigs)
            serverKey np (.str homeDomain) now =
          .ok ⟨⟨challengeBody serverKey c homeDomain timeout nonce now, np, sigs⟩,
               c, homeDomain⟩) := by
  refine ⟨?_, ?_, ?_⟩
  · intro serverKey clientAccountID homeDomain timeout networkPassphrase nonce now h
    unfold buildChallengeTx
    rw [if_pos h]
  · intro e s np hd now h
    unfold readChallengeTx
    rw [if_pos h]
  · intro serverKey c homeDomain timeout np nonce now sigs hM hcM hc hd hnow
    have h := readChallengeTx_challengeBody serverKey c homeDomain timeout nonce now
      sigs np (.str homeDomain) now hM hc (by omega) (le_refl now) (by omega)
      (by simp [homeDomainsFalsy, hd])
    rw [h]
    simp [findHomeDomain, hd]

/-- Witness for C6 (amended) at concrete inputs. -/
theorem multiplexed_account_rejection_witness :
    buildChallengeTx "GS" "MCLIENT" "SDF" 300 "NP" "n" 5 =
      .error .multiplexedClientAccount ∧
    readChallengeTx .feeBumpEnv "MSERVER" "NP" (.str "SDF") 5 =
      .error .multiplexedServerAccount ∧
    readChallengeTx (.txEnv muxedBody []) "GSERVER" "NP" (.str "SDF") 5 =
      .ok ⟨⟨muxedBody, "NP", []⟩, "MCLIENT", "SDF"⟩ :=
  ⟨multiplexed_account_rejection.1 "GS" "MCLIENT" "SDF" 300 "NP" "n" 5 (by decide),
   multiplexed_account_rejection.2.1 .feeBumpEnv "MSERVER" "NP" (.str "SDF") 5 (by decide),
   multiplexed_account_rejection.2.2 "GSERVER" "MCLIENT" "SDF" 10 "NP" "nonce" 5 []
     (by decide) (by decide) (by decide) (by decide) (by decide)⟩

/-- Counterexample for C6 as stated: a challenge whose first-operation
source is the multiplexed address MCLIENT is accepted by `readChallengeTx`,
which returns the M-address as the client account ID instead of rejecting. -/
theorem multiplexed_client_source_counterexample :
    headIs "MCLIENT" 'M' = true ∧
    readChallengeTx (.txEnv muxedBody []) "GSERVER" "NP" (.str "SDF") 7 =
      .ok ⟨⟨muxedBody, "NP", []⟩, "MCLIENT", "SDF"⟩ :=
  ⟨rfl, rfl⟩

/-- C7: `verifyChallengeTxSigners` silently drops the server account and any
candidate not starting with G from the candidate list (first conjunct:
membership characterisation of the filtered, deduplicated list); when the
filtered list is empty it throws the no-verifiable-client-signers error with
the exact message of the source (second conjunct); the same non-G candidate
handed directly to `gatherTxSigners` on a signed transaction is instead a
hard invalid-address error (third conjunct). -/
theorem verifySigners_filter_and_gather_asymmetry :
    (∀ (serverPub : String) (signers : List String) (s : String),
        s ∈ clientSignersOf serverPub signers ↔
          s ∈ signers ∧ s ≠ serverPub ∧ headIs s 'G' = true) ∧
    (∀ (e : Envelope) (s np : String) (signers : List String)
        (hd : HomeDomains) (now : Nat) (contents : ChallengeContents),
        readChallengeTx e s np hd now = .ok contents →
        isValidPublicKey s = true →
        clientSignersOf s signers = [] →
        verifyChallengeTxSigners e s np signers hd now = .error .noClientSigners ∧
        renderChallengeError .noClientSigners =
          "No verifiable client signers provided, at least one G... address must be provided") ∧
    (∀ (t : Transaction) (c : String) (rest : List String),
        t.signatures ≠ [] → headIs c 'G' = false →
        gatherTxSigners t (c :: rest) = .error .signerNotValidAddress) := by
  refine ⟨fun _ _ _ => mem_clientSignersOf, ?_, ?_⟩
  · intro e s np signers hd now contents hread hvalid hempty
    refine ⟨?_, rfl⟩
    unfold verifyChallengeTxSigners
    rw [hread]
    dsimp only
    rw [hvalid]
    rw [if_neg (by simp)]
    rw [if_pos hempty]
  · intro t c rest hne hG
    unfold gatherTxSigners gatherGo
    rw [if_neg hne]
    have hv : isValidPublicKey c = false := hG
    rw [hv]
    simp [Except.map]

/-- Witness for C7: the pre-authorized-transaction-hash style candidate
TPREAUTH is dropped by the filter, makes the filtered list empty when it is
the only candidate, and is a hard error for `gatherTxSigners`. -/
theorem verifySigners_filter_and_gather_asymmetry_witness :
    (¬ ("TPREAUTH" ∈ clientSignersOf sampleServer ["TPREAUTH", sampleServer, sampleClient])) ∧
    verifyChallengeTxSigners sampleEnv sampleServer "NP" ["TPREAUTH", sampleServer]
        (.str "SDF") 7 = .error .noClientSigners ∧
    gatherTxSigners ⟨sampleBody, "NP", [sampleSigServer]⟩ ["TPREAUTH"] =
      .error .signerNotValidAddress :=
  ⟨fun h => by
      have := (verifySigners_filter_and_gather_asymmetry.1 sampleServer
        ["TPREAUTH", sampleServer, sampleClient] "TPREAUTH").mp h
      exact absurd this.2.2 (by decide),
   (verifySigners_filter_and_gather_asymmetry.2.1 sampleEnv sampleServer "NP"
     ["TPREAUTH", sampleServer] (.str "SDF") 7
     ⟨⟨sampleBody, "NP", [sampleSigServer, sampleSigClient]⟩, sampleClient, "SDF"⟩
     rfl rfl rfl).1,
   verifySigners_filter_and_gather_asymmetry.2.2
     ⟨sampleBody, "NP", [sampleSigServer]⟩ "TPREAUTH" [] (by decide) (by decide)⟩

/-- C3 (amended): `verifyChallengeTxThreshold` sums the weights of the
signers returned by `verifyChallengeTxSigners`, a missing summary entry
contributing weight 0 rather than erroring; when the sum is below the
threshold it throws the threshold error carrying the sum and the threshold,
whose rendered message is `signers with weight <sum> do not meet threshold
<threshold>"` — with a stray trailing double-quote from the source template
literal; otherwise it returns exactly the list of
`verifyChallengeTxSigners`. -/
theorem verifyChallengeTxThreshold_spec :
    (∀ (signerSummary : List AccountRecordSigner) (s : String),
        signerSummary.find? (fun entry => entry.key == s) = none →
        signerWeight signerSummary s = 0) ∧
    (∀ (e : Envelope) (sa np : String) (threshold : Nat)
        (signerSummary : List AccountRecordSigner) (hd : HomeDomains)
        (now : Nat) (l : List String),
        verifyChallengeTxSigners e sa np
            (signerSummary.map AccountRecordSigner.key) hd now = .ok l →
        ((l.foldl (fun acc x => acc + signerWeight signerSummary x) 0 < threshold →
            verifyChallengeTxThreshold e sa np threshold signerSummary hd now =
              .error (.thresholdNotMet
                (l.foldl (fun acc x => acc + signerWeight signerSummary x) 0)
                threshold)) ∧
          (threshold ≤ l.foldl (fun acc x => acc + signerWeight signerSummary x) 0 →
            verifyChallengeTxThreshold e sa np threshold signerSummary hd now =
              .ok l))) ∧
    (∀ w t : Nat, renderChallengeError (.thresholdNotMet w t) =
        "signers with weight " ++ toString w ++ " do not meet threshold " ++
          toString t ++ "\x22") := by
  refine ⟨?_, ?_, fun _ _ => rfl⟩
  · intro signerSummary s h
    unfold signerWeight
    rw [h]
  · intro e sa np threshold signerSummary hd now l hok
    constructor
    · intro hlt
      unfold verifyChallengeTxThreshold
      rw [hok]
      dsimp only
      rw [if_pos hlt]
    · intro hge
      unfold verifyChallengeTxThreshold
      rw [hok]
      dsimp only
      rw [if_neg (by omega)]

/-- Witness for C3 (amended) at concrete inputs: weight 1 misses threshold 3. -/
theorem verifyChallengeTxThreshold_spec_witness :
    signerWeight [] "GCLIENT" = 0 ∧
    verifyChallengeTxThreshold sampleEnv sampleServer "NP" 3
        [⟨"GCLIENT", 1⟩] (.str "SDF") 7 = .error (.thresholdNotMet 1 3) ∧
    renderChallengeError (.thresholdNotMet 1 3) =
      "signers with weight 1 do not meet threshold 3\x22" :=
  ⟨verifyChallengeTxThreshold_spec.1 [] "GCLIENT" rfl,
   (verifyChallengeTxThreshold_spec.2.1 sampleEnv sampleServer "NP" 3
     [⟨"GCLIENT", 1⟩] (.str "SDF") 7 ["GCLIENT"] rfl).1 (by decide),
   verifyChallengeTxThreshold_spec.2.2 1 3⟩

/-- Counterexample for C3 as stated: the thrown message is not
`signers with weight 1 do not meet threshold 3` — the source template ends
with a stray double-quote (the repository test suite asserts the quote). -/
theorem verifyChallengeTxThreshold_message_counterexample :
    verifyChallengeTxThreshold sampleEnv sampleServer "NP" 3
        [⟨sampleClient, 1⟩] (.str "SDF") 7 = .error (.thresholdNotMet 1 3) ∧
    renderChallengeError (.thresholdNotMet 1 3) ≠
      "signers with weight 1 do not meet threshold 3" :=
  ⟨rfl, by decide⟩

/-- C2: `verifyChallengeTxSigners` succeeds only when the number of signers
found (server plus matched clients) equals the total signature count of the
transaction (first conjunct); a signature matched by neither the server nor
any provided candidate makes success impossible (second conjunct); and when
the server and at least one candidate did match but the counts still differ,
the error thrown is exactly the unrecognized-signatures error with the exact
source message (third conjunct). -/
theorem verifyChallengeTxSigners_signature_accounting :
    (∀ (e : Envelope) (s np : String) (signers : List String)
        (hd : HomeDomains) (now : Nat) (l : List String),
        verifyChallengeTxSigners e s np signers hd now = .ok l →
        l.length + 1 = (envSignatures e).length) ∧
    (∀ (e : Envelope) (s np : String) (signers : List String)
        (hd : HomeDomains) (now : Nat) (sig : DecoratedSignature),
        sig ∈ envSignatures e →
        sigMatches s (envBodyD e) np sig = false →
        (∀ c ∈ signers, sigMatches c (envBodyD e) np sig = false) →
        ∀ l, verifyChallengeTxSigners e s np signers hd now ≠ .ok l) ∧
    (∀ (e : Envelope) (s np : String) (signers : List String)
        (hd : HomeDomains) (now : Nat) (contents : ChallengeContents)
        (found : List String),
        readChallengeTx e s np hd now = .ok contents →
        isValidPublicKey s = true →
        clientSignersOf s signers ≠ [] →
        gatherTxSigners contents.tx (s :: clientSignersOf s signers) = .ok found →
        found.contains s = true →
        found.length ≠ 1 →
        found.length ≠ contents.tx.signatures.length →
        verifyChallengeTxSigners e s np signers hd now =
            .error .unrecognizedSignatures ∧
        renderChallengeError .unrecognizedSignatures =
          "Transaction has unrecognized signatures") := by
  refine ⟨?_, ?_, ?_⟩
  · intro e s np signers hd now l h
    obtain ⟨body, sigs, found, rem, rfl, hgo, hmem, hlen, rfl⟩ := verifySigners_ok_inv h
    have h1 : (found.erase s).length = found.length - 1 := List.length_erase_of_mem hmem
    have h2 : 0 < found.length := List.length_pos_of_mem hmem
    show (found.erase s).length + 1 = sigs.length
    omega
  · intro e s np signers hd now sig hsigmem hs hall l h
    obtain ⟨body, sigs, found, rem, rfl, hgo, hmem, hlen, _⟩ := verifySigners_ok_inv h
    have hcands : ∀ c ∈ s :: clientSignersOf s signers,
        sigMatches c body np sig = false := by
      intro c hcmem
      rcases List.mem_cons.mp hcmem with rfl | hcmem
      · exact hs
      · exact hall c (mem_clientSignersOf.mp hcmem).1
    have hrem : sig ∈ rem :=
      gatherGo_unmatched (s :: clientSignersOf s signers) sigs [] hgo hsigmem hcands
    have hle := gatherGo_length (s :: clientSignersOf s signers) sigs [] hgo
    have hpos : 0 < rem.length := List.length_pos_of_mem hrem
    simp only [List.length_nil] at hle
    omega
  · intro e s np signers hd now contents found hread hvalid hne hg hcontains hlen1 hlen2
    exact ⟨verifySigners_unrecognized_path hread hvalid hne hg hcontains hlen1 hlen2, rfl⟩

/-- Witness for C2 at the concrete extra-signature scenario. -/
theorem verifyChallengeTxSigners_signature_accounting_witness :
    ([sampleClient].length + 1 = (envSignatures sampleEnv).length) ∧
    (verifyChallengeTxSigners sampleEnvExtra sampleServer "NP" [sampleClient]
        (.str "SDF") 7 ≠ .ok []) ∧
    verifyChallengeTxSigners sampleEnvExtra sampleServer "NP" [sampleClient]
        (.str "SDF") 7 = .error .unrecognizedSignatures :=
  ⟨verifyChallengeTxSigners_signature_accounting.1 sampleEnv sampleServer "NP"
     [sampleClient] (.str "SDF") 7 [sampleClient] rfl,
   verifyChallengeTxSigners_signature_accounting.2.1 sampleEnvExtra sampleServer
     "NP" [sampleClient] (.str "SDF") 7 sampleSigExtra (by decide) (by decide)
     (by decide) [],
   (verifyChallengeTxSigners_signature_accounting.2.2 sampleEnvExtra sampleServer
     "NP" [sampleClient] (.str "SDF") 7
     ⟨⟨sampleBody, "NP", [sampleSigServer, sampleSigClient, sampleSigExtra]⟩,
      sampleClient, "SDF"⟩
     [sampleServer, sampleClient] rfl rfl (by decide) rfl rfl (by decide)
     (by decide)).1⟩

/-- C8: `readChallengeTx` returns the expiry error exactly when the
validation steps preceding the time check pass and the time-bounds object is
missing or `now` lies outside `[minTime, maxTime]` (first conjunct, an
unconditional characterisation); on a built challenge, reading at
`now + timeout` (the maxTime boundary) succeeds and reading one second later
fails with exactly the expiry error (second conjunct). -/
theorem readChallengeTx_expiry_spec :
    (∀ (e : Envelope) (s np : String) (hd : HomeDomains) (now : Nat),
        readChallengeTx e s np hd now = .error .expired ↔
          preTimeChecksPass e s = true ∧
            outsideTimeBounds (envBodyD e) now = true) ∧
    (∀ (serverKey clientAccountID homeDomain : String) (timeout : Nat)
        (networkPassphrase nonce : String) (now : Nat) (env : Envelope),
        headIs serverKey 'M' = false → clientAccountID ≠ "" →
        homeDomain ≠ "" → 0 < now →
        buildChallengeTx serverKey clientAccountID homeDomain timeout
            networkPassphrase nonce now = .ok env →
        readChallengeTx env serverKey networkPassphrase (.str homeDomain)
            (now + timeout) =
          .ok ⟨⟨challengeBody serverKey clientAccountID homeDomain timeout nonce now,
                networkPassphrase,
                [signBody serverKey
                  (challengeBody serverKey clientAccountID homeDomain timeout nonce now)
                  networkPassphrase]⟩,
               clientAccountID, homeDomain⟩ ∧
        readChallengeTx env serverKey networkPassphrase (.str homeDomain)
            (now + timeout + 1) = .error .expired) := by
  refine ⟨readChallengeTx_expired_iff, ?_⟩
  intro serverKey c hdm timeout np nonce now env hM hc hd hnow hbuild
  unfold buildChallengeTx at hbuild
  by_cases hcm : headIs c 'M' = true
  · rw [if_pos hcm] at hbuild; cases hbuild
  rw [if_neg hcm] at hbuild
  dsimp only at hbuild
  cases hbuild
  constructor
  · have h := readChallengeTx_challengeBody serverKey c hdm timeout nonce now
      [signBody serverKey (challengeBody serverKey c hdm timeout nonce now) np]
      np (.str hdm) (now + timeout)
      hM hc (by omega) (by omega) (le_refl _)
      (by simp [homeDomainsFalsy, hd])
    rw [h]
    simp [findHomeDomain, hd]
  · apply (readChallengeTx_expired_iff _ _ _ _ _).mpr
    have hcb : (c == "") = false := beq_eq_false_iff_ne.mpr hc
    have hmx : ((now + timeout) == 0) = false := beq_eq_false_iff_ne.mpr (by omega)
    constructor
    · simp [preTimeChecksPass, challengeBody, hM, truthy, hcb, hmx]
    · simp only [envBodyD, outsideTimeBounds, challengeBody]
      simp

/-- Witness for C8 at concrete inputs: the boundary is inclusive at
maxTime = 1300 and expired at 1301. -/
theorem readChallengeTx_expiry_spec_witness :
    readChallengeTx
        (.txEnv (challengeBody "GSERVER" "GCLIENT" "SDF" 300 "nonce" 1000)
          [signBody "GSERVER" (challengeBody "GSERVER" "GCLIENT" "SDF" 300 "nonce" 1000) "NP"])
        "GSERVER" "NP" (.str "SDF") (1000 + 300) =
      .ok ⟨⟨challengeBody "GSERVER" "GCLIENT" "SDF" 300 "nonce" 1000, "NP",
            [signBody "GSERVER" (challengeBody "GSERVER" "GCLIENT" "SDF" 300 "nonce" 1000) "NP"]⟩,
           "GCLIENT", "SDF"⟩ ∧
    readChallengeTx
        (.txEnv (challengeBody "GSERVER" "GCLIENT" "SDF" 300 "nonce" 1000)
          [signBody "GSERVER" (challengeBody "GSERVER" "GCLIENT" "SDF" 300 "nonce" 1000) "NP"])
        "GSERVER" "NP" (.str "SDF") (1000 + 300 + 1) = .error .expired :=
  readChallengeTx_expiry_spec.2 "GSERVER" "GCLIENT" "SDF" 300 "NP" "nonce" 1000
    (.txEnv (challengeBody "GSERVER" "GCLIENT" "SDF" 300 "nonce" 1000)
      [signBody "GSERVER" (challengeBody "GSERVER" "GCLIENT" "SDF" 300 "nonce" 1000) "NP"])
    (by decide) (by decide) (by decide) (by decide) rfl

/-- C9: on a built challenge with home domain `homeDomain`, reading with a
string equal to the domain succeeds; reading with an array containing the
domain succeeds with `matchedHomeDomain = homeDomain` (the only element that
can match the key name); reading with an array not containing it, or a
different non-empty string, fails with the domain-mismatch error. -/
theorem readChallengeTx_homeDomain_matching
    (serverKey clientAccountID homeDomain : String) (timeout : Nat)
    (np nonce : String) (now : Nat) (sigs : List DecoratedSignature)
    (hM : headIs serverKey 'M' = false) (hc : clientAccountID ≠ "")
    (hd : homeDomain ≠ "") (hnow : 0 < now) :
    (readChallengeTx
        (.txEnv (challengeBody serverKey clientAccountID homeDomain timeout nonce now) sigs)
        serverKey np (.str homeDomain) now =
      .ok ⟨⟨challengeBody serverKey clientAccountID homeDomain timeout nonce now, np, sigs⟩,
           clientAccountID, homeDomain⟩) ∧
    (∀ domains : List String, homeDomain ∈ domains →
        readChallengeTx
            (.txEnv (challengeBody serverKey clientAccountID homeDomain timeout nonce now) sigs)
            serverKey np (.arr domains) now =
          .ok ⟨⟨challengeBody serverKey clientAccountID homeDomain timeout nonce now, np, sigs⟩,
               clientAccountID, homeDomain⟩) ∧
    (∀ domains : List String, homeDomain ∉ domains →
        readChallengeTx
            (.txEnv (challengeBody serverKey clientAccountID homeDomain timeout nonce now) sigs)
            serverKey np (.arr domains) now = .error .homeDomainMismatch) ∧
    (∀ d : String, d ≠ homeDomain → d ≠ "" →
        readChallengeTx
            (.txEnv (challengeBody serverKey clientAccountID homeDomain timeout nonce now) sigs)
            serverKey np (.str d) now = .error .homeDomainMismatch) := by
  have hbase := fun (hdoms : HomeDomains) (hfalsy : homeDomainsFalsy hdoms = false) =>
    readChallengeTx_challengeBody serverKey clientAccountID homeDomain timeout
      nonce now sigs np hdoms now hM hc (by omega) (le_refl now) (by omega) hfalsy
  refine ⟨?_, ?_, ?_, ?_⟩
  · rw [hbase (.str homeDomain) (by simp [homeDomainsFalsy, hd])]
    simp [findHomeDomain, hd]
  · intro domains hmem
    rw [hbase (.arr domains) rfl]
    rw [findHomeDomain_arr_mem hmem]
    dsimp only
    rw [if_neg (by simp [hd])]
  · intro domains hnotmem
    rw [hbase (.arr domains) rfl]
    rw [findHomeDomain_arr_not_mem hnotmem]
  · intro d hne hd0
    rw [hbase (.str d) (by simp [homeDomainsFalsy, hd0])]
    rw [findHomeDomain_str_ne hne]

/-- Witness for C9: a challenge built with home domain SDF reads against
[Test, SDF, Other] with matched domain SDF, and fails against [Test, Other]. -/
theorem readChallengeTx_homeDomain_matching_witness :
    readChallengeTx (.txEnv sampleBody [sampleSigServer]) "GSERVER" "NP"
        (.arr ["Test", "SDF", "Other"]) 5 =
      .ok ⟨⟨sampleBody, "NP", [sampleSigServer]⟩, "GCLIENT", "SDF"⟩ ∧
    readChallengeTx (.txEnv sampleBody [sampleSigServer]) "GSERVER" "NP"
        (.arr ["Test", "Other"]) 5 = .error .homeDomainMismatch :=
  ⟨(readChallengeTx_homeDomain_matching "GSERVER" "GCLIENT" "SDF" 10 "NP" "nonce" 5
      [sampleSigServer] (by decide) (by decide) (by decide) (by decide)).2.1
      ["Test", "SDF", "Other"] (by decide),
   (readChallengeTx_homeDomain_matching "GSERVER" "GCLIENT" "SDF" 10 "NP" "nonce" 5
      [sampleSigServer] (by decide) (by decide) (by decide) (by decide)).2.2.1
      ["Test", "Other"] (by decide)⟩

end AiBlocks
